import Mathlib

/-!
Verification development for the VidarDB PostgreSQL foreign data wrapper's
inter-process communication core (shared-memory command/response protocol,
response channel pool, worker receive loops).

The definitions below are shallow embeddings of the C/C++ functions in
`src/kv_shm.c`, `src/kv_worker.cc`, `src/server/kv_worker.cc` and
`src/ipc/kv_posix.cc`.  POSIX semaphores are modelled by their counter
values (a `Nat` per semaphore); registries kept in hash tables or
`std::unordered_map` are modelled by association lists; the storage engine
is modelled by the values it hands back through its narrow interface.
-/

namespace KVFdw

/-! ## Response channel pool (kv_shm.c `GetResponseQueueIndex`, kv_posix.cc `SemTryWait`)

`SemTryWait` wraps `sem_trywait`: it succeeds exactly when the semaphore
counter is positive, decrementing it; otherwise it reports would-block.
`GetResponseQueueIndex` loops forever scanning channel ids `0..N-1` and
returns the first id whose `responseMutex` semaphore was acquired. -/

/-- `sem_trywait` on a semaphore whose counter is `v`: acquired (decrement)
iff `0 < v`, otherwise would-block (`none`). -/
def semTryWait (v : Nat) : Option Nat :=
  if 0 < v then some (v - 1) else none

/-- One pass of the `for` scan in `GetResponseQueueIndex` over the
`responseMutex` counters: the index of the first semaphore whose
`SemTryWait` succeeds, scanning in the fixed order `0, 1, 2, …`. -/
def scanResponseQueue : List Nat → Option Nat
  | [] => none
  | v :: rest =>
    match semTryWait v with
    | some _ => some 0
    | none => (scanResponseQueue rest).map (· + 1)

/-- Semaphore-pool state after channel `i` was leased: its `responseMutex`
counter is decremented (the successful `SemTryWait`). -/
def leaseUpdate (s : List Nat) (i : Nat) : List Nat :=
  s.set i (s.getD i 0 - 1)

/-- `UnleaseResponseQueue` / the client's final `SemPost(responseMutex[i])`:
the counter of channel `i` is incremented. -/
def unleaseUpdate (s : List Nat) (i : Nat) : List Nat :=
  s.set i (s.getD i 0 + 1)

theorem scanResponseQueue_getD_pos :
    ∀ (s : List Nat) (i : Nat), scanResponseQueue s = some i → 0 < s.getD i 0 := by
  intro s
  induction s with
  | nil => intro i h; simp [scanResponseQueue] at h
  | cons v rest ih =>
    intro i h
    by_cases hv : 0 < v
    · simp [scanResponseQueue, semTryWait, hv] at h
      subst h
      simpa using hv
    · simp [scanResponseQueue, semTryWait, hv] at h
      obtain ⟨j, hj, rfl⟩ := h
      simpa using ih j hj

theorem scanResponseQueue_least :
    ∀ (s : List Nat) (i : Nat), scanResponseQueue s = some i →
      ∀ j, j < i → s.getD j 0 = 0 := by
  intro s
  induction s with
  | nil => intro i h; simp [scanResponseQueue] at h
  | cons v rest ih =>
    intro i h j hj
    by_cases hv : 0 < v
    · simp [scanResponseQueue, semTryWait, hv] at h
      omega
    · simp [scanResponseQueue, semTryWait, hv] at h
      obtain ⟨k, hk, rfl⟩ := h
      cases j with
      | zero => simpa using Nat.eq_zero_of_not_pos hv
      | succ j => simpa using ih k hk j (by omega)

theorem scanResponseQueue_none_iff (s : List Nat) :
    scanResponseQueue s = none ↔ ∀ v ∈ s, v = 0 := by
  induction s with
  | nil => simp [scanResponseQueue]
  | cons v rest ih =>
    by_cases hv : 0 < v
    · constructor
      · intro h; simp [scanResponseQueue, semTryWait, hv] at h
      · intro h
        have : v = 0 := h v (by simp)
        omega
    · simp [scanResponseQueue, semTryWait, hv, ih]
      omega

theorem getD_pos_lt_length {s : List Nat} {i : Nat} (h : 0 < s.getD i 0) :
    i < s.length := by
  by_contra hlen
  rw [List.getD_eq_default s 0 (by omega)] at h
  omega

theorem getD_set_self :
    ∀ (s : List Nat) (i x : Nat), i < s.length → (s.set i x).getD i 0 = x := by
  intro s
  induction s with
  | nil => intro i x h; simp at h
  | cons v rest ih =>
    intro i x h
    cases i with
    | zero => simp
    | succ i => simpa using ih i x (by simpa using Nat.lt_of_succ_lt_succ h)

theorem getD_set_ne :
    ∀ (s : List Nat) (i k x : Nat), k ≠ i → (s.set k x).getD i 0 = s.getD i 0 := by
  intro s
  induction s with
  | nil => intro i k x _; simp
  | cons v rest ih =>
    intro i k x hne
    cases k with
    | zero =>
      cases i with
      | zero => exact absurd rfl hne
      | succ i => simp
    | succ k =>
      cases i with
      | zero => simp
      | succ i => simpa using ih i k x (by omega)

/-- C1: two overlapping leases are distinct; a lease's lock was just acquired
by a successful `tryWait`; the scan runs in fixed order from 0; and the
lease loop returns only when some lock is acquired.  Conjuncts: (1) the
returned id had a positive (acquirable) counter and every smaller id was
locked, so the scan order is the fixed order from 0; (2) on a pool of binary
semaphores the leased id's counter drops to 0; (3) any `SemPost` on another
channel leaves the leased counter at 0; (4) while the leased id's counter is
still 0 (the lease is outstanding), a second lease returns a different id;
(5) the scan finds no id exactly when every lock is taken, in which case the
outer `while (true)` loop goes around again. -/
theorem lease_distinct_of_outstanding
    (s : List Nat) (i : Nat)
    (hbin : ∀ v ∈ s, v ≤ 1)
    (h1 : scanResponseQueue s = some i) :
    (0 < s.getD i 0 ∧ ∀ j, j < i → s.getD j 0 = 0)
    ∧ (leaseUpdate s i).getD i 0 = 0
    ∧ (∀ s' k, k ≠ i → (unleaseUpdate s' k).getD i 0 = s'.getD i 0)
    ∧ (∀ s' j, s'.getD i 0 = 0 → scanResponseQueue s' = some j → j ≠ i)
    ∧ (∀ t : List Nat, scanResponseQueue t = none ↔ ∀ v ∈ t, v = 0) := by
  have hpos := scanResponseQueue_getD_pos s i h1
  have hlen := getD_pos_lt_length hpos
  refine ⟨⟨hpos, scanResponseQueue_least s i h1⟩, ?_, ?_, ?_, ?_⟩
  · have hle : s.getD i 0 ≤ 1 := by
      have : s.getD i 0 ∈ s := by
        rw [List.getD_eq_getElem s 0 hlen]
        exact s.getElem_mem hlen
      exact hbin _ this
    rw [leaseUpdate, getD_set_self s i _ hlen]
    omega
  · intro s' k hk
    exact getD_set_ne s' i k _ hk
  · intro s' j hzero h2 hji
    subst hji
    have := scanResponseQueue_getD_pos s' j h2
    omega
  · exact scanResponseQueue_none_iff

/-- Witness for `lease_distinct_of_outstanding` at the concrete binary pool
`[1, 1, 1]`, whose scan leases channel 0. -/
theorem lease_distinct_of_outstanding_witness :
    (∀ v ∈ [1, 1, 1], v ≤ 1) ∧ scanResponseQueue [1, 1, 1] = some 0 ∧
      (leaseUpdate [1, 1, 1] 0).getD 0 0 = 0 :=
  ⟨by decide, by decide,
    (lease_distinct_of_outstanding [1, 1, 1] 0 (by decide) (by decide)).2.1⟩

/-! ## RangeQuery skip-empty-chunk loop (kv_worker.cc / server/kv_worker.cc `KVWorker::RangeQuery`)

The worker's handler runs
`do { state.next = RangeQueryRead(..., &state.size, ...); } while (state.next && state.size == 0);`.
The collaborator `RangeQueryRead` is modelled by the list of
`(size, hasMore)` chunks it emits across successive calls. -/

/-- One chunk handed back by `RangeQueryRead`: the number of result bytes
(`state.size`) and whether more data remains (`state.next`). -/
structure Chunk where
  size : Nat
  next : Bool
deriving DecidableEq, Repr

/-- The `do … while (state.next && state.size == 0)` loop of
`KVWorker::RangeQuery`: consume chunks from the collaborator while the
chunk is empty and `hasMore` is still true; return the first chunk that
breaks the loop, with the collaborator's remaining chunks.  `none` models a
collaborator that violates its contract by running out of chunks. -/
def rangeQueryLoop : List Chunk → Option (Chunk × List Chunk)
  | [] => none
  | c :: rest =>
    if c.next = true ∧ c.size = 0 then rangeQueryLoop rest else some (c, rest)

/-- The sequence of `(size, next)` states the protocol surfaces to the
client across repeated `RangeQuery` calls, until a response with
`next = false` ends the stream (fuel-indexed; the fuel only needs to cover
the collaborator's chunk list). -/
def visibleResultsAux : Nat → List Chunk → List Chunk
  | 0, _ => []
  | fuel + 1, emits =>
    match rangeQueryLoop emits with
    | none => []
    | some (c, rest) =>
      if c.next then c :: visibleResultsAux fuel rest else [c]

/-- Visible result sequence for a collaborator emitting `emits`. -/
def visibleResults (emits : List Chunk) : List Chunk :=
  visibleResultsAux emits.length emits

theorem rangeQueryLoop_not_empty_nonterminal :
    ∀ (emits : List Chunk) (c : Chunk) (rest : List Chunk),
      rangeQueryLoop emits = some (c, rest) → 0 < c.size ∨ c.next = false := by
  intro emits
  induction emits with
  | nil => intro c rest h; simp [rangeQueryLoop] at h
  | cons d ds ih =>
    intro c rest h
    by_cases hd : d.next = true ∧ d.size = 0
    · rw [rangeQueryLoop, if_pos hd] at h
      exact ih c rest h
    · rw [rangeQueryLoop, if_neg hd] at h
      obtain ⟨rfl, rfl⟩ : d = c ∧ ds = rest := by
        constructor <;> [exact congrArg Prod.fst (Option.some.inj h);
                        exact congrArg Prod.snd (Option.some.inj h)]
      rcases Bool.eq_false_or_eq_true d.next with hb | hb
      · have hsz : ¬ d.size = 0 := fun h0 => hd ⟨hb, h0⟩
        exact Or.inl (by omega)
      · exact Or.inr hb

/-- C2: the worker-side `RangeQuery` handler never surfaces an empty,
non-terminal chunk: every chunk that escapes the skip loop is non-empty or
terminal, and for a collaborator emitting
`{(empty,true), (empty,true), (nonempty,true), (empty,false)}` the visible
sequence of results is exactly the non-empty chunk followed by the
end-of-stream response. -/
theorem rangeQuery_never_surfaces_empty_nonterminal
    (k : Nat) (hk : 0 < k) :
    (∀ (emits : List Chunk) (c : Chunk) (rest : List Chunk),
        rangeQueryLoop emits = some (c, rest) → 0 < c.size ∨ c.next = false)
    ∧ visibleResults [⟨0, true⟩, ⟨0, true⟩, ⟨k, true⟩, ⟨0, false⟩]
        = [⟨k, true⟩, ⟨0, false⟩] := by
  refine ⟨rangeQueryLoop_not_empty_nonterminal, ?_⟩
  have hk0 : ¬ k = 0 := by omega
  simp [visibleResults, visibleResultsAux, rangeQueryLoop, hk0]

/-- Witness for `rangeQuery_never_surfaces_empty_nonterminal` with a
non-empty chunk of 5 bytes. -/
theorem rangeQuery_never_surfaces_empty_nonterminal_witness :
    visibleResults [⟨0, true⟩, ⟨0, true⟩, ⟨5, true⟩, ⟨0, false⟩]
      = [⟨5, true⟩, ⟨0, false⟩] :=
  (rangeQuery_never_surfaces_empty_nonterminal 5 (by decide)).2

/-! ## PutRequest frame-size check (kv_shm.c `PutRequest`)

`PutRequest` writes, in program order: the opcode (`FuncName`, 4 bytes) at
offset 0, the response channel id (`uint32`, 4 bytes) at 4, the relation id
(`Oid`, 4 bytes) at 8, the key length (`size_t`, 8 bytes) at 12, the key
bytes at 20, the value length (8 bytes) at `20 + keyLen` and the value
bytes at `28 + keyLen` — all by `memcpy` into the shared command area — and
only afterwards evaluates `current + valLen - ptr->area > BUFSIZE`
(i.e. `28 + keyLen + valLen > BUFSIZE`), raising the
"tuple is too long, increase BUFSIZE" error when it holds. -/

/-- One `memcpy` into the shared command area: target offset and length. -/
structure WriteEvent where
  offset : Nat
  len : Nat
deriving DecidableEq, Repr

/-- The writes `PutRequest` performs into the shared command area, in
program order, all of which happen before the frame-size check. -/
def putRequestWritesBeforeCheck (keyLen valLen : Nat) : List WriteEvent :=
  [⟨0, 4⟩,                     -- func
   ⟨4, 4⟩,                     -- responseId
   ⟨8, 4⟩,                     -- relationId
   ⟨12, 8⟩,                    -- keyLen
   ⟨20, keyLen⟩,               -- key bytes
   ⟨20 + keyLen, 8⟩,           -- valLen
   ⟨28 + keyLen, valLen⟩]      -- value bytes

/-- Total frame size of a Put command:
`sizeof(FuncName) + sizeof(responseId) + sizeof(relationId) +
 sizeof(keyLen) + keyLen + sizeof(valLen) + valLen`. -/
def putTotalFrameSize (keyLen valLen : Nat) : Nat :=
  28 + keyLen + valLen

/-- Outcome of `PutRequest`'s frame-size check. -/
inductive PutOutcome where
  | ok
  | errTooLong
deriving DecidableEq, Repr

/-- `PutRequest`'s size check, exactly as in the source: error iff the
total frame size exceeds `BUFSIZE` (the check runs after the writes in
`putRequestWritesBeforeCheck`). -/
def putRequestCheck (BUFSIZE keyLen valLen : Nat) : PutOutcome :=
  if putTotalFrameSize keyLen valLen > BUFSIZE then .errTooLong else .ok

/-- C3 (code bug): with `BUFSIZE = 64`, a put whose frame is exactly 64
bytes passes the check, and a put one byte over (65 bytes) is rejected with
the distinct too-long error — but the rejection happens only after
`PutRequest` has already copied the value bytes into the command area: the
last pre-check write ends at offset 65, one byte past the area's capacity,
so the claimed "reject before any bytes are written / no memory
corruption" does not hold of the code. -/
theorem putRequest_size_check_after_writes :
    putRequestCheck 64 28 8 = PutOutcome.ok
    ∧ putTotalFrameSize 28 8 = 64
    ∧ putRequestCheck 64 29 8 = PutOutcome.errTooLong
    ∧ putTotalFrameSize 29 8 = 64 + 1
    ∧ (∃ w ∈ putRequestWritesBeforeCheck 29 8, 64 < w.offset + w.len)
    ∧ putRequestWritesBeforeCheck 29 8 ≠ [] := by
  refine ⟨by decide, by decide, by decide, by decide, ?_, by decide⟩
  exact ⟨⟨28 + 29, 8⟩, by decide, by decide⟩

/-! ## Open/Close reference counting (server/kv_worker.cc `KVWorker::Open`/`Close`,
kv_shm.c `OpenResponse`/`CloseResponse`)

The message-queue worker keeps one storage connection `conn_` and an
observational counter `ref_`; `Open` creates the connection only when none
exists yet and increments `ref_`, `Close` only decrements `ref_`.  The
legacy worker keeps a hash table `kvTableHash` of
`{relationId, ref (uint32), db}` entries; `CloseResponse` decrements `ref`
and never calls the storage engine's `Close` nor removes the entry. -/

/-- Per-worker state of the message-queue worker: the storage connection
handle (if opened) and the reference counter. -/
structure ServerWorkerState where
  conn : Option Nat
  ref : Int
deriving DecidableEq, Repr

/-- Fresh worker (`KVWorker::KVWorker`): no connection, `ref_ = 0`. -/
def serverWorkerInit : ServerWorkerState := ⟨none, 0⟩

/-- `KVWorker::Open`: `if (!conn_) conn_ = OpenConn(...); ref_++;`
(`newConn` is the handle the storage engine would hand back). -/
def serverOpen (s : ServerWorkerState) (newConn : Nat) : ServerWorkerState :=
  { conn := match s.conn with
            | some c => some c
            | none => some newConn,
    ref := s.ref + 1 }

/-- `KVWorker::Close`: `if (conn_) ref_--;` — the connection handle is
untouched. -/
def serverClose (s : ServerWorkerState) : ServerWorkerState :=
  { s with ref := if s.conn.isSome then s.ref - 1 else s.ref }

/-- The commands relevant to the reference-counting protocol. -/
inductive WorkerCmd where
  | cmdOpen (newConn : Nat)
  | cmdClose
  | cmdGet (key : Nat)
deriving DecidableEq, Repr

/-- Is a command an Open? -/
def isOpenCmd : WorkerCmd → Bool
  | .cmdOpen _ => true
  | _ => false

/-- Dispatch of one command by the worker's single-threaded loop (`Get`
reads through `conn_` and leaves the state unchanged). -/
def serverStepCmd (s : ServerWorkerState) : WorkerCmd → ServerWorkerState
  | .cmdOpen c => serverOpen s c
  | .cmdClose => serverClose s
  | .cmdGet _ => s

/-- The worker's receive loop over a sequence of commands. -/
def serverRunCmds (s : ServerWorkerState) (cmds : List WorkerCmd) : ServerWorkerState :=
  cmds.foldl serverStepCmd s

theorem serverRun_conn_isSome (cmds : List WorkerCmd) :
    ∀ s : ServerWorkerState,
      (serverRunCmds s cmds).conn.isSome
        = (s.conn.isSome || cmds.any isOpenCmd) := by
  induction cmds with
  | nil => intro s; simp [serverRunCmds]
  | cons c cs ih =>
    intro s
    have hstep : serverRunCmds s (c :: cs) = serverRunCmds (serverStepCmd s c) cs := rfl
    rw [hstep, ih]
    cases c with
    | cmdOpen n =>
      cases hc : s.conn <;> simp [serverStepCmd, serverOpen, hc, isOpenCmd]
    | cmdClose => simp [serverStepCmd, serverClose, isOpenCmd]
    | cmdGet k => simp [serverStepCmd, isOpenCmd]

/-- One entry of the legacy worker's `kvTableHash`. -/
structure KVHashEntry where
  relationId : Nat
  ref : Nat
  dbOpen : Bool
deriving DecidableEq, Repr

/-- `uint32` modulus for the entry's `ref` counter. -/
def u32 : Nat := 2 ^ 32

/-- `hash_search(kvTableHash, &relationId, HASH_FIND, ...)`. -/
def tblFind (tbl : List KVHashEntry) (r : Nat) : Option KVHashEntry :=
  tbl.find? (fun e => e.relationId == r)

/-- `OpenResponse`: on a hit, `entry->ref++`; on a miss, enter a fresh entry
with `ref = 1` and an open storage connection. -/
def openResponse (tbl : List KVHashEntry) (r : Nat) : List KVHashEntry :=
  match tblFind tbl r with
  | some _ =>
    tbl.map (fun e => if e.relationId == r
                      then { e with ref := (e.ref + 1) % u32 } else e)
  | none => tbl ++ [⟨r, 1, true⟩]

/-- `CloseResponse`: error on a miss ("failed in hash search"); on a hit,
`entry->ref--` (uint32 wrap-around) — the entry is kept and its `db`
connection is never closed. -/
def closeResponse (tbl : List KVHashEntry) (r : Nat) :
    Except Unit (List KVHashEntry) :=
  match tblFind tbl r with
  | none => .error ()
  | some _ =>
    .ok (tbl.map (fun e => if e.relationId == r
                           then { e with ref := (e.ref + (u32 - 1)) % u32 } else e))

theorem closeResponse_preserves (tbl : List KVHashEntry) (r : Nat)
    (tbl' : List KVHashEntry) (h : closeResponse tbl r = .ok tbl') :
    tbl'.map (fun e => e.dbOpen) = tbl.map (fun e => e.dbOpen)
    ∧ tbl'.map (fun e => e.relationId) = tbl.map (fun e => e.relationId)
    ∧ tbl'.length = tbl.length := by
  unfold closeResponse at h
  cases hf : tblFind tbl r with
  | none => rw [hf] at h; cases h
  | some e =>
    rw [hf] at h
    cases h
    refine ⟨?_, ?_, by simp⟩
    · simp only [List.map_map]
      congr 1
      funext a
      by_cases hb : (a.relationId == r) = true <;> simp [Function.comp, hb]
    · simp only [List.map_map]
      congr 1
      funext a
      by_cases hb : (a.relationId == r) = true <;> simp [Function.comp, hb]

/-- C4: Open increments the reference count (creating the storage
connection only when none exists), Close only decrements it and never
closes the connection, and after ref reaches 0 the connection stays open
and the worker keeps serving requests.  Conjuncts: message-queue worker —
(1) Open always increments `ref_`; (2) Open keeps an existing connection;
(3) Open creates the connection when there is none; (4) Close never touches
the connection handle; (5) Close decrements `ref_` when a connection
exists; (6) across any command sequence the connection is open iff it was
open before or some Open ran (so no command ever closes it); (7) the
end-to-end scenario open,open,close,close ends with `ref = 0` and the
connection still open; (8) a subsequent Get still finds the open
connection.  Legacy worker — (9) `CloseResponse` never closes a storage
connection, never drops an entry; (10) the same end-to-end scenario on
`kvTableHash` leaves `ref = 0`, the `db` handle open, and the relation
still found by a later lookup. -/
theorem open_close_ref_observational :
    (∀ (s : ServerWorkerState) (c : Nat), (serverOpen s c).ref = s.ref + 1)
    ∧ (∀ (s : ServerWorkerState) (c x : Nat),
        s.conn = some x → (serverOpen s c).conn = some x)
    ∧ (∀ (s : ServerWorkerState) (c : Nat),
        s.conn = none → (serverOpen s c).conn = some c)
    ∧ (∀ s : ServerWorkerState, (serverClose s).conn = s.conn)
    ∧ (∀ s : ServerWorkerState,
        s.conn.isSome = true → (serverClose s).ref = s.ref - 1)
    ∧ (∀ (cmds : List WorkerCmd) (s : ServerWorkerState),
        (serverRunCmds s cmds).conn.isSome
          = (s.conn.isSome || cmds.any isOpenCmd))
    ∧ serverRunCmds serverWorkerInit
        [.cmdOpen 7, .cmdOpen 7, .cmdClose, .cmdClose] = ⟨some 7, 0⟩
    ∧ (serverRunCmds serverWorkerInit
        [.cmdOpen 7, .cmdOpen 7, .cmdClose, .cmdClose, .cmdGet 3]).conn = some 7
    ∧ (∀ (tbl : List KVHashEntry) (r : Nat) (tbl' : List KVHashEntry),
        closeResponse tbl r = .ok tbl' →
          tbl'.map (fun e => e.dbOpen) = tbl.map (fun e => e.dbOpen)
          ∧ tbl'.map (fun e => e.relationId) = tbl.map (fun e => e.relationId)
          ∧ tbl'.length = tbl.length)
    ∧ closeResponse (openResponse (openResponse [] 5) 5) 5 = .ok [⟨5, 1, true⟩]
    ∧ closeResponse [⟨5, 1, true⟩] 5 = .ok [⟨5, 0, true⟩]
    ∧ tblFind [⟨5, 0, true⟩] 5 = some ⟨5, 0, true⟩ := by
  refine ⟨fun s c => rfl, ?_, ?_, fun s => rfl, ?_, serverRun_conn_isSome,
          by decide, by decide, closeResponse_preserves, ?_, ?_, ?_⟩
  · intro s c x hx; simp [serverOpen, hx]
  · intro s c hx; simp [serverOpen, hx]
  · intro s hs; simp [serverClose, hs]
  · rfl
  · rfl
  · rfl

/-- Witness for `open_close_ref_observational`: Close on a worker with an
open connection decrements `ref_` to 1 and keeps the connection. -/
theorem open_close_ref_observational_witness :
    (serverClose ⟨some 7, 2⟩).ref = 2 - 1 ∧ (serverClose ⟨some 7, 2⟩).conn = some 7 :=
  ⟨open_close_ref_observational.2.2.2.2.1 ⟨some 7, 2⟩ (by decide),
   open_close_ref_observational.2.2.2.1 ⟨some 7, 2⟩⟩

/-! ## Synchronous call step order (kv_shm.c `CountRequest` and `KVWorkerMain`)

`CountRequest` is the archetypal synchronous client call.  Its program
order is: `SemWait(mutex)`, `SemWait(full)`, `memcpy` of the opcode into
`ptr->area`, `GetResponseQueueIndex` (the lease), `memcpy` of the response
channel id and the relation id into the area, `SemPost(worker)`,
`SemPost(mutex)`, `SemWait(responseSync[id])`, `memcpy` out of
`ResponseQueue[id]`, `SemPost(responseMutex[id])`.  The worker's loop body
is `SemWait(worker)`, copy the command out of the area into a local
buffer, `SemPost(full)`, dispatch, `SemPost(responseSync[id])`. -/

/-- A protocol step of the client call or the worker loop. -/
inductive PEvent where
  | waitMutex
  | waitFull
  | writeArea
  | leaseChannel
  | postWorker
  | postMutex
  | waitResponseSync
  | readResponse
  | unleaseChannel
  | waitWorkerSem
  | copyOutCommand
  | postFull
  | dispatchHandler
  | postResponseSync
deriving DecidableEq, Repr

/-- The steps of `CountRequest`, in program order (the three `writeArea`
events are the `memcpy`s of opcode, response channel id and relation id). -/
def countRequestTrace : List PEvent :=
  [.waitMutex, .waitFull, .writeArea, .leaseChannel, .writeArea, .writeArea,
   .postWorker, .postMutex, .waitResponseSync, .readResponse, .unleaseChannel]

/-- One iteration of the `KVWorkerMain` receive loop, in program order. -/
def workerIterationTrace : List PEvent :=
  [.waitWorkerSem, .copyOutCommand, .postFull, .dispatchHandler,
   .postResponseSync]

/-- Counters of the command-slot discipline: the `full` semaphore's value,
the producers that have passed `SemWait(full)` but not yet signalled the
worker, the commands written and signalled but not yet copied out, and the
commands copied out whose `full` post is still pending. -/
structure SlotState where
  full : Nat
  holding : Nat
  pending : Nat
  copied : Nat
deriving DecidableEq, Repr

/-- Transitions of the command-slot discipline, exactly the four points at
which `kv_shm.c` touches the `full` semaphore or the command area. -/
inductive SlotStep where
  | acquireFull
  | submit
  | copyOut
  | repostFull
deriving DecidableEq, Repr

/-- Guarded small-step semantics of the slot discipline: `SemWait(full)`
blocks unless `full` is positive; a submit requires the producer to have
acquired `full`; the worker's copy-out requires a pending command; the
worker re-posts `full` only after one of its own copy-outs. -/
def slotStep (s : SlotState) : SlotStep → Option SlotState
  | .acquireFull =>
    if 0 < s.full
    then some { s with full := s.full - 1, holding := s.holding + 1 }
    else none
  | .submit =>
    if 0 < s.holding
    then some { s with holding := s.holding - 1, pending := s.pending + 1 }
    else none
  | .copyOut =>
    if 0 < s.pending
    then some { s with pending := s.pending - 1, copied := s.copied + 1 }
    else none
  | .repostFull =>
    if 0 < s.copied
    then some { s with copied := s.copied - 1, full := s.full + 1 }
    else none

/-- Initial slot state: `SemInit(&ptr->full, 1, 1)` — one free command slot,
no producer holding it, no pending or copied command. -/
def slotInitState : SlotState := ⟨1, 0, 0, 0⟩

/-- Run a sequence of slot-discipline steps (blocked step ⇒ no run). -/
def slotRun : SlotState → List SlotStep → Option SlotState
  | s, [] => some s
  | s, st :: rest =>
    match slotStep s st with
    | none => none
    | some s1 => slotRun s1 rest

theorem slotStep_sum (s : SlotState) (st : SlotStep) (s1 : SlotState)
    (h : slotStep s st = some s1) :
    s1.full + s1.holding + s1.pending + s1.copied
      = s.full + s.holding + s.pending + s.copied := by
  cases st with
  | acquireFull =>
    rw [slotStep] at h
    split at h
    · cases h; simp; omega
    · cases h
  | submit =>
    rw [slotStep] at h
    split at h
    · cases h; simp; omega
    · cases h
  | copyOut =>
    rw [slotStep] at h
    split at h
    · cases h; simp; omega
    · cases h
  | repostFull =>
    rw [slotStep] at h
    split at h
    · cases h; simp; omega
    · cases h

theorem slotRun_sum (steps : List SlotStep) :
    ∀ s s2 : SlotState, slotRun s steps = some s2 →
      s2.full + s2.holding + s2.pending + s2.copied
        = s.full + s.holding + s.pending + s.copied := by
  induction steps with
  | nil =>
    intro s s2 h
    rw [slotRun] at h
    cases h
    rfl
  | cons st rest ih =>
    intro s s2 h
    rw [slotRun] at h
    cases hs : slotStep s st with
    | none => rw [hs] at h; cases h
    | some s1 =>
      rw [hs] at h
      rw [ih s1 s2 h, slotStep_sum s st s1 hs]

/-- C5 counterexample: the claimed step order of a synchronous call puts
the response-channel lease strictly before any write of the envelope into
the command area, but `CountRequest` copies the opcode into the shared
command area (its first `writeArea`, at index 2) before it calls
`GetResponseQueueIndex` (index 3): the lease does not precede the first
command-area write. -/
theorem countRequest_lease_not_before_writes :
    countRequestTrace.indexOf PEvent.writeArea = 2
    ∧ countRequestTrace.indexOf PEvent.leaseChannel = 3
    ∧ ¬ countRequestTrace.indexOf PEvent.leaseChannel
        < countRequestTrace.indexOf PEvent.writeArea := by
  refine ⟨by decide, by decide, by decide⟩

/-- C5 (amended): a synchronous client call acquires the producer mutex,
waits on `full`, writes the opcode, leases a response channel, writes the
rest of the envelope and the body, signals the worker, releases the mutex,
blocks on the leased channel's `responseSync`, reads the response and
unleases the channel; and the `full` discipline keeps at most one
outstanding, not-yet-consumed command in the command area, with the worker
re-posting `full` only after its copy-out.  Conjuncts: (1)–(8) the step
order of `CountRequest` as executed (opcode write between the `full` wait
and the lease, every area write after the `full` wait and before the
worker signal); (9)–(10) the worker copies the command out before
re-posting `full` and before dispatching; (11) in every reachable state of
the slot discipline the slot accounts sum to 1, so at most one command is
held, in flight, or awaiting its `full` re-post at any time. -/
theorem sync_call_step_order :
    countRequestTrace.indexOf PEvent.waitMutex
      < countRequestTrace.indexOf PEvent.waitFull
    ∧ countRequestTrace.indexOf PEvent.waitFull
      < countRequestTrace.indexOf PEvent.writeArea
    ∧ countRequestTrace.indexOf PEvent.writeArea
      < countRequestTrace.indexOf PEvent.leaseChannel
    ∧ countRequestTrace.indexOf PEvent.leaseChannel
      < countRequestTrace.indexOf PEvent.postWorker
    ∧ countRequestTrace.indexOf PEvent.postWorker
      < countRequestTrace.indexOf PEvent.postMutex
    ∧ countRequestTrace.indexOf PEvent.postMutex
      < countRequestTrace.indexOf PEvent.waitResponseSync
    ∧ countRequestTrace.indexOf PEvent.waitResponseSync
      < countRequestTrace.indexOf PEvent.readResponse
    ∧ countRequestTrace.indexOf PEvent.readResponse
      < countRequestTrace.indexOf PEvent.unleaseChannel
    ∧ (∀ i : Fin countRequestTrace.length,
        countRequestTrace.get i = PEvent.writeArea →
          countRequestTrace.indexOf PEvent.waitFull < i.val
          ∧ i.val < countRequestTrace.indexOf PEvent.postWorker)
    ∧ workerIterationTrace.indexOf PEvent.copyOutCommand
      < workerIterationTrace.indexOf PEvent.postFull
    ∧ workerIterationTrace.indexOf PEvent.postFull
      < workerIterationTrace.indexOf PEvent.dispatchHandler
    ∧ (∀ (steps : List SlotStep) (s2 : SlotState),
        slotRun slotInitState steps = some s2 →
          s2.full + s2.holding + s2.pending + s2.copied = 1) := by
  refine ⟨by decide, by decide, by decide, by decide, by decide, by decide,
          by decide, by decide, by decide, by decide, by decide, ?_⟩
  intro steps s2 h
  exact slotRun_sum steps slotInitState s2 h

/-- Witness for `sync_call_step_order`: after acquiring `full` and
submitting a command, exactly that one command is pending and the slot
accounts sum to 1. -/
theorem sync_call_step_order_witness :
    slotRun slotInitState [SlotStep.acquireFull, SlotStep.submit]
      = some ⟨0, 0, 1, 0⟩
    ∧ (0 : Nat) + 0 + 1 + 0 = 1 :=
  ⟨by decide,
    sync_call_step_order.2.2.2.2.2.2.2.2.2.2.2
      [SlotStep.acquireFull, SlotStep.submit] ⟨0, 0, 1, 0⟩ (by decide)⟩

/-! ## Cursor and range-query registries (server/kv_worker.cc
`KVWorker::CloseCursor` / `KVWorker::ClearRangeQuery`, kv_shm.c
`DelIterResponse`)

The message-queue worker keeps `cursors_` and `ranges_` as
`std::unordered_map`s keyed by `(pid, opid)`; the legacy worker keeps
`kvIterHash` keyed by `(relationId, pid)` whose entries hold a nullable
iterator pointer.  Maps are modelled as association lists with unique
keys. -/

/-- `(clientPid, operationId)` cursor key of the message-queue worker. -/
abbrev CursorKey := Nat × Nat

/-- `(relationId, clientPid)` key of the legacy worker's `kvIterHash`. -/
abbrev IterKey := Nat × Nat

/-- `find` in an association-list registry. -/
def regFind {β : Type} (reg : List (CursorKey × β)) (k : CursorKey) : Option β :=
  (reg.find? (fun e => decide (e.1 = k))).map (·.2)

/-- `unordered_map::erase` of the entry found for `k`. -/
def regErase {β : Type} (reg : List (CursorKey × β)) (k : CursorKey) :
    List (CursorKey × β) :=
  reg.eraseP (fun e => decide (e.1 = k))

/-- A cached range-query entry `{range, readOpts}`. -/
structure RQEntry where
  range : Nat
  readOpts : Nat
deriving DecidableEq, Repr

/-- server `KVWorker::CloseCursor`: look the key up in `cursors_`; if
absent, return at once (no error, no state change); if present, `DelIter`
the handle and erase the entry.  No error path exists. -/
def closeCursorServer (cursors : List (CursorKey × Nat)) (k : CursorKey) :
    Except Unit (List (CursorKey × Nat)) :=
  match regFind cursors k with
  | none => .ok cursors
  | some _ => .ok (regErase cursors k)

/-- server `KVWorker::ClearRangeQuery`: look the key up in `ranges_`; if
absent, return at once; if present, `ClearRangeQueryMeta`, erase the
entry, and unlink the result segment.  No error path exists. -/
def clearRangeQueryServer (ranges : List (CursorKey × RQEntry)) (k : CursorKey) :
    Except Unit (List (CursorKey × RQEntry)) :=
  match regFind ranges k with
  | none => .ok ranges
  | some _ => .ok (regErase ranges k)

/-- kv_shm.c `DelIterResponse`: `hash_search(kvIterHash, …, HASH_FIND, …)`;
a miss raises `ereport(ERROR, "… failed in hash search")`; a hit calls
`DelIter` and nulls the entry's `iter` only when it is non-null — the
entry itself is kept in the table. -/
def delIterResponse (iters : List (IterKey × Option Nat)) (k : IterKey) :
    Except Unit (List (IterKey × Option Nat)) :=
  match regFind iters k with
  | none => .error ()
  | some _ =>
    .ok (iters.map (fun e => if e.1 = k then (e.1, (none : Option Nat)) else e))

theorem regFind_eq_none_of_not_mem {β : Type} (reg : List (CursorKey × β))
    (k : CursorKey) (h : k ∉ reg.map Prod.fst) : regFind reg k = none := by
  induction reg with
  | nil => rfl
  | cons e rest ih =>
    have hek : ¬ e.1 = k := fun he => h (by simp [he])
    have hrest : k ∉ rest.map Prod.fst := fun hm => h (by simp [hm])
    simp only [regFind, List.find?] at *
    simp [hek]
    simpa [regFind] using ih hrest

theorem regFind_regErase_self {β : Type} (reg : List (CursorKey × β))
    (k : CursorKey) (hnd : (reg.map Prod.fst).Nodup) :
    regFind (regErase reg k) k = none := by
  induction reg with
  | nil => rfl
  | cons e rest ih =>
    rw [List.map_cons, List.nodup_cons] at hnd
    by_cases he : e.1 = k
    · have : regErase (e :: rest) k = rest := by
        simp [regErase, List.eraseP_cons, he]
      rw [this]
      exact regFind_eq_none_of_not_mem rest k (he ▸ hnd.1)
    · have : regErase (e :: rest) k = e :: regErase rest k := by
        simp [regErase, List.eraseP_cons, he]
      rw [this]
      simp only [regFind, List.find?]
      simp [he]
      simpa [regFind] using ih hnd.2

theorem regFind_cons_pos {β : Type} (e : CursorKey × β) (rest : List (CursorKey × β))
    (k : CursorKey) (he : e.1 = k) : regFind (e :: rest) k = some e.2 := by
  unfold regFind
  rw [List.find?_cons_of_pos _ (by simpa using he)]
  rfl

theorem regFind_cons_neg {β : Type} (e : CursorKey × β) (rest : List (CursorKey × β))
    (k : CursorKey) (he : ¬ e.1 = k) : regFind (e :: rest) k = regFind rest k := by
  unfold regFind
  rw [List.find?_cons_of_neg _ (by simpa using he)]

theorem delIterResponse_mapNull_id (iters : List (IterKey × Option Nat))
    (k : IterKey) (hnd : (iters.map Prod.fst).Nodup)
    (h : regFind iters k = some none) :
    iters.map (fun e => if e.1 = k then (e.1, (none : Option Nat)) else e)
      = iters := by
  induction iters with
  | nil => rfl
  | cons e rest ih =>
    rw [List.map_cons, List.nodup_cons] at hnd
    by_cases he : e.1 = k
    · have hiter : e.2 = none :=
        Option.some.inj ((regFind_cons_pos e rest k he).symm.trans h)
      have hrest : ∀ e2 ∈ rest, ¬ e2.1 = k := by
        intro e2 hm he2
        exact hnd.1 (by rw [he, ← he2]; exact List.mem_map_of_mem Prod.fst hm)
      have htail : rest.map (fun e2 => if e2.1 = k then (e2.1, (none : Option Nat)) else e2)
          = rest := by
        apply List.map_congr_left ?_ |>.trans rest.map_id
        intro a ha
        simp [hrest a ha]
      simp only [List.map_cons, htail]
      congr 1
      rw [if_pos he, ← hiter]
    · rw [regFind_cons_neg e rest k he] at h
      simp only [List.map_cons, if_neg he]
      rw [ih hnd.2 h]

/-- C6 counterexample: `DelIterResponse` — the legacy worker's close-cursor
handler — invoked with a cursor key absent from its registry raises an
error (`ereport(ERROR, "… failed in hash search")`) instead of completing
as a no-op. -/
theorem delIterResponse_unknown_key_errors :
    delIterResponse [] (1, 2) = .error ()
    ∧ delIterResponse [((3, 4), some 9)] (1, 2) = .error () := by
  exact ⟨rfl, rfl⟩

/-- C6 (amended): the message-queue worker's `CloseCursor` and
`ClearRangeQuery` on an absent key are no-ops (no error, no state change),
and a double close is idempotent; the legacy worker's `DelIterResponse`
raises an error on a never-registered key, but a second `DelIter` for a
registered key whose iterator is already deleted is a no-op (the entry is
kept with a null iterator).  Conjuncts: (1)–(2) absent key ⇒ `CloseCursor`
/ `ClearRangeQuery` return without error and leave the registry unchanged;
(3)–(4) closing the same key twice gives the same registry as closing it
once; (5) `DelIterResponse` on an absent key errors; (6) `DelIterResponse`
on an already-nulled entry is a no-op. -/
theorem close_cursor_unknown_key_noop :
    (∀ (cursors : List (CursorKey × Nat)) (k : CursorKey),
        regFind cursors k = none → closeCursorServer cursors k = .ok cursors)
    ∧ (∀ (ranges : List (CursorKey × RQEntry)) (k : CursorKey),
        regFind ranges k = none → clearRangeQueryServer ranges k = .ok ranges)
    ∧ (∀ (cursors : List (CursorKey × Nat)) (k : CursorKey)
         (reg1 : List (CursorKey × Nat)),
        (cursors.map Prod.fst).Nodup →
        closeCursorServer cursors k = .ok reg1 →
        closeCursorServer reg1 k = .ok reg1)
    ∧ (∀ (ranges : List (CursorKey × RQEntry)) (k : CursorKey)
         (reg1 : List (CursorKey × RQEntry)),
        (ranges.map Prod.fst).Nodup →
        clearRangeQueryServer ranges k = .ok reg1 →
        clearRangeQueryServer reg1 k = .ok reg1)
    ∧ (∀ (iters : List (IterKey × Option Nat)) (k : IterKey),
        regFind iters k = none → delIterResponse iters k = .error ())
    ∧ (∀ (iters : List (IterKey × Option Nat)) (k : IterKey),
        (iters.map Prod.fst).Nodup → regFind iters k = some none →
          delIterResponse iters k = .ok iters) := by
  refine ⟨?_, ?_, ?_, ?_, ?_, ?_⟩
  · intro cursors k h; simp [closeCursorServer, h]
  · intro ranges k h; simp [clearRangeQueryServer, h]
  · intro cursors k reg1 hnd h
    rw [closeCursorServer] at h
    cases hf : regFind cursors k with
    | none =>
      rw [hf] at h
      cases h
      simp [closeCursorServer, hf]
    | some c =>
      rw [hf] at h
      cases h
      simp [closeCursorServer, regFind_regErase_self cursors k hnd]
  · intro ranges k reg1 hnd h
    rw [clearRangeQueryServer] at h
    cases hf : regFind ranges k with
    | none =>
      rw [hf] at h
      cases h
      simp [clearRangeQueryServer, hf]
    | some c =>
      rw [hf] at h
      cases h
      simp [clearRangeQueryServer, regFind_regErase_self ranges k hnd]
  · intro iters k h; simp [delIterResponse, h]
  · intro iters k hnd h
    simp [delIterResponse, h, delIterResponse_mapNull_id iters k hnd h]

/-- Witness for `close_cursor_unknown_key_noop`: closing the absent key
`(1, 2)` on an empty cursor registry returns the registry unchanged. -/
theorem close_cursor_unknown_key_noop_witness :
    closeCursorServer [] (1, 2) = .ok []
    ∧ delIterResponse [((1, 2), none)] (1, 2) = .ok [((1, 2), none)] :=
  ⟨close_cursor_unknown_key_noop.1 [] (1, 2) rfl,
   close_cursor_unknown_key_noop.2.2.2.2.2 [((1, 2), none)] (1, 2)
     (by simp) rfl⟩

/-! ## Worker receive loops and opcode dispatch (kv_shm.c `KVWorkerMain`,
server/kv_worker.cc `KVWorker::Run`)

`KVWorkerMain` copies each command out of the shared area (re-posting
`full`), handles `TERMINATE` by signalling `responseSync[responseId]` and
breaking, dispatches catalog opcodes through its `switch`, and hits
`ereport(ERROR, "… failed in switch")` on any other opcode — the loop does
not continue past it.  `KVWorker::Run` receives a message header per
iteration and dispatches on `msg.hdr.op`; its `default:` arm only logs
`ereport(WARNING, "invalid operation")` and the `while (running_)` loop
goes on to the next message. -/

/-- The legacy protocol's `FuncName` opcodes, plus an out-of-catalog code. -/
inductive FuncName where
  | OPEN | CLOSE | COUNT | GETITER | DELITER | NEXT | GET | PUT | DELETE
  | RANGEQUERY | TERMINATE
  | UNKNOWNFUNC (code : Nat)
deriving DecidableEq, Repr

/-- A command as read from the shared command area: opcode and response
channel id. -/
structure ShmCommand where
  func : FuncName
  responseId : Nat
deriving DecidableEq, Repr

/-- Observable steps of the `KVWorkerMain` receive loop. -/
inductive ShmLoopEvent where
  | copiedOut (c : ShmCommand)
  | handledFunc (f : FuncName)
  | postedResponseSync (id : Nat)
  | raisedError
deriving DecidableEq, Repr

/-- Membership of an opcode in `KVWorkerMain`'s `switch` catalog. -/
def inShmCatalog : FuncName → Bool
  | .UNKNOWNFUNC _ => false
  | _ => true

/-- The `KVWorkerMain` receive loop over the stream of commands delivered
through the command area: copy out (and free the slot), break on
`TERMINATE` after signalling its response channel, dispatch catalog
opcodes and signal, and raise the fatal "failed in switch" error on any
other opcode. -/
def kvWorkerLoop : List ShmCommand → List ShmLoopEvent
  | [] => []
  | c :: rest =>
    ShmLoopEvent.copiedOut c ::
    (if c.func = .TERMINATE then
      [ShmLoopEvent.postedResponseSync c.responseId]
    else if inShmCatalog c.func then
      ShmLoopEvent.handledFunc c.func ::
        ShmLoopEvent.postedResponseSync c.responseId :: kvWorkerLoop rest
    else
      [ShmLoopEvent.raisedError])

/-- The message-queue protocol's operations, plus an out-of-catalog code. -/
inductive KVOp where
  | opDummy | opOpen | opClose | opCount | opPut | opGet | opDel | opLoad
  | opReadBatch | opDelCursor | opRangeQuery | opClearRangeQuery | opLaunch
  | opTerminate
  | opUnknown (code : Nat)
deriving DecidableEq, Repr

/-- A received message header: operation and response channel id. -/
structure QMessage where
  op : KVOp
  rpsId : Nat
deriving DecidableEq, Repr

/-- Observable steps of the `KVWorker::Run` receive loop. -/
inductive QEvent where
  | received (m : QMessage)
  | handledOp (op : KVOp)
  | warnedInvalidOp (op : KVOp)
  | sentResponse (rpsId : Nat)
deriving DecidableEq, Repr

/-- Membership of an operation in `KVWorker::Run`'s `switch` catalog
(`KVOpLaunch` is a manager-only operation with no worker case). -/
def inServerCatalog : KVOp → Bool
  | .opLaunch => false
  | .opUnknown _ => false
  | _ => true

/-- Which server-side handlers send a response message
(`Open`, `Close`, `Load`, `CloseCursor`, `ClearRangeQuery` and `Terminate`
send nothing). -/
def serverSendsResponse : KVOp → Bool
  | .opCount | .opPut | .opGet | .opDel | .opReadBatch | .opRangeQuery => true
  | _ => false

/-- The `KVWorker::Run` receive loop over the stream of incoming messages:
`Terminate` stops the loop (`running_ = false`) after its handler;
catalog operations are dispatched (sending a response when the handler
does) and the loop continues; any other opcode hits the `default:` arm,
logs the "invalid operation" warning, and the loop continues. -/
def serverRunLoop : List QMessage → List QEvent
  | [] => []
  | m :: rest =>
    QEvent.received m ::
    (if m.op = .opTerminate then
      [QEvent.handledOp .opTerminate]
    else if inServerCatalog m.op then
      QEvent.handledOp m.op ::
        ((if serverSendsResponse m.op then [QEvent.sentResponse m.rpsId] else [])
          ++ serverRunLoop rest)
    else
      QEvent.warnedInvalidOp m.op :: serverRunLoop rest)

/-- Worker processes share no address space: dispatching a command to
worker `wid` applies that worker's step to its own state only. -/
def systemDispatch (sys : Nat → ServerWorkerState) (wid : Nat)
    (step : ServerWorkerState → ServerWorkerState) : Nat → ServerWorkerState :=
  fun w => if w = wid then step (sys w) else sys w

theorem kvWorkerLoop_append (pre : List ShmCommand)
    (hpre : ∀ c ∈ pre, ¬ c.func = .TERMINATE ∧ inShmCatalog c.func = true) :
    ∀ l, kvWorkerLoop (pre ++ l) = kvWorkerLoop pre ++ kvWorkerLoop l := by
  induction pre with
  | nil => intro l; rfl
  | cons c cs ih =>
    intro l
    obtain ⟨hterm, hcat⟩ := hpre c (by simp)
    have hcs : ∀ c2 ∈ cs, ¬ c2.func = .TERMINATE ∧ inShmCatalog c2.func = true :=
      fun c2 hm => hpre c2 (by simp [hm])
    have h1 : kvWorkerLoop (c :: (cs ++ l))
        = ShmLoopEvent.copiedOut c :: ShmLoopEvent.handledFunc c.func ::
            ShmLoopEvent.postedResponseSync c.responseId :: kvWorkerLoop (cs ++ l) := by
      rw [kvWorkerLoop, if_neg hterm, if_pos hcat]
    have h2 : kvWorkerLoop (c :: cs)
        = ShmLoopEvent.copiedOut c :: ShmLoopEvent.handledFunc c.func ::
            ShmLoopEvent.postedResponseSync c.responseId :: kvWorkerLoop cs := by
      rw [kvWorkerLoop, if_neg hterm, if_pos hcat]
    rw [List.cons_append, h1, h2, ih hcs l]
    simp

/-- C7 counterexample: in the message-queue worker's receive loop an
unknown opcode only logs the "invalid operation" warning and the loop
continues — after dispatching `opUnknown 99` the worker receives and fully
handles the following `Count` command, so the protocol violation is not
fatal to the worker processing the request. -/
theorem unknown_opcode_not_fatal_in_server_worker :
    serverRunLoop [⟨.opUnknown 99, 0⟩, ⟨.opCount, 1⟩]
      = [.received ⟨.opUnknown 99, 0⟩, .warnedInvalidOp (.opUnknown 99),
         .received ⟨.opCount, 1⟩, .handledOp .opCount, .sentResponse 1] := by
  rfl

/-- C7 (amended): an out-of-catalog opcode is fatal to the legacy
`KVWorkerMain` worker — it raises the "failed in switch" error and the
receive loop processes nothing further — while the message-queue
`KVWorker::Run` worker only logs the "invalid operation" warning and
continues its receive loop with the next message; in either case the
dispatch touches only the addressed worker's state, never another
worker's. -/
theorem unknown_opcode_dispatch (c : ShmCommand) (rest : List ShmCommand)
    (hunk : inShmCatalog c.func = false) (hterm : ¬ c.func = .TERMINATE)
    (m : QMessage) (rest2 : List QMessage)
    (hunk2 : inServerCatalog m.op = false) (hterm2 : ¬ m.op = .opTerminate) :
    kvWorkerLoop (c :: rest) = [.copiedOut c, .raisedError]
    ∧ serverRunLoop (m :: rest2)
        = QEvent.received m :: QEvent.warnedInvalidOp m.op :: serverRunLoop rest2
    ∧ (∀ (sys : Nat → ServerWorkerState) (wid : Nat)
         (step : ServerWorkerState → ServerWorkerState) (w : Nat),
        ¬ w = wid → systemDispatch sys wid step w = sys w) := by
  refine ⟨?_, ?_, ?_⟩
  · rw [kvWorkerLoop, if_neg hterm, if_neg (by simp [hunk])]
  · rw [serverRunLoop, if_neg hterm2, if_neg (by simp [hunk2])]
  · intro sys wid step w hw
    simp [systemDispatch, hw]

/-- Witness for `unknown_opcode_dispatch` at the out-of-catalog opcodes
`UNKNOWNFUNC 42` and `opUnknown 7`. -/
theorem unknown_opcode_dispatch_witness :
    kvWorkerLoop [⟨.UNKNOWNFUNC 42, 0⟩, ⟨.GET, 1⟩]
      = [.copiedOut ⟨.UNKNOWNFUNC 42, 0⟩, .raisedError] :=
  (unknown_opcode_dispatch ⟨.UNKNOWNFUNC 42, 0⟩ [⟨.GET, 1⟩] rfl (by decide)
    ⟨.opUnknown 7, 0⟩ [] rfl (by decide)).1

/-- C9 counterexample: the message-queue worker's Terminate handler
discards the message and stops the loop (`Stop()`), signalling no response
channel at all — `KVWorkerClient::Terminate` is fire-and-forget — so "the
worker signals the response channel named in the Terminate command" fails
for this worker. -/
theorem server_terminate_sends_no_response :
    serverRunLoop [⟨.opTerminate, 3⟩]
      = [.received ⟨.opTerminate, 3⟩, .handledOp .opTerminate]
    ∧ (serverRunLoop [⟨.opTerminate, 3⟩]).filter
        (fun e => match e with | QEvent.sentResponse _ => true | _ => false)
      = [] := by
  exact ⟨rfl, rfl⟩

/-- C9 (amended): after receiving a Terminate command the legacy
`KVWorkerMain` worker posts `responseSync[responseId]` of that very
command, breaks its receive loop and never processes any further command;
the message-queue worker likewise exits its loop after Terminate and
processes nothing further, but it signals no response channel (its
Terminate is fire-and-forget). -/
theorem terminate_stops_worker (pre : List ShmCommand) (t : ShmCommand)
    (post : List ShmCommand)
    (hpre : ∀ c ∈ pre, ¬ c.func = .TERMINATE ∧ inShmCatalog c.func = true)
    (ht : t.func = .TERMINATE)
    (m : QMessage) (rest : List QMessage) (hm : m.op = .opTerminate) :
    kvWorkerLoop (pre ++ t :: post)
      = kvWorkerLoop pre
          ++ [.copiedOut t, .postedResponseSync t.responseId]
    ∧ serverRunLoop (m :: rest) = [.received m, .handledOp .opTerminate]
    ∧ (serverRunLoop (m :: rest)).filter
        (fun e => match e with | QEvent.sentResponse _ => true | _ => false)
      = [] := by
  refine ⟨?_, ?_, ?_⟩
  · rw [kvWorkerLoop_append pre hpre (t :: post), kvWorkerLoop, if_pos ht]
  · rw [serverRunLoop, if_pos hm]
  · rw [serverRunLoop, if_pos hm]
    rfl

/-- Witness for `terminate_stops_worker`: a Get, then Terminate on channel
2, then a Put that is never processed. -/
theorem terminate_stops_worker_witness :
    kvWorkerLoop [⟨.GET, 1⟩, ⟨.TERMINATE, 2⟩, ⟨.PUT, 0⟩]
      = kvWorkerLoop [⟨.GET, 1⟩]
          ++ [.copiedOut ⟨.TERMINATE, 2⟩, .postedResponseSync 2] :=
  (terminate_stops_worker [⟨.GET, 1⟩] ⟨.TERMINATE, 2⟩ [⟨.PUT, 0⟩]
    (by decide) rfl ⟨.opTerminate, 3⟩ [⟨.opCount, 1⟩] rfl).1

/-! ## Teardown wrappers (kv_posix.cc `ShmUnlink`, `Munmap`, `SemDestroy`)

In PostgreSQL, `ereport(WARNING, …)` logs and returns to the caller while
`ereport(ERROR, …)` longjmps out of the current operation — the caller
does not continue. -/

/-- Result of the underlying syscall. -/
inductive SyscallResult where
  | ok | fail
deriving DecidableEq, Repr

/-- What a teardown wrapper does after its syscall. -/
inductive TeardownOutcome where
  | done
  | warnedAndContinued
  | abortedWithError
deriving DecidableEq, Repr

/-- `ShmUnlink`: on `shm_unlink` failure, `ereport(WARNING, …)` with the
hint "maybe no shared memory to unlink", and return. -/
def shmUnlinkOutcome : SyscallResult → TeardownOutcome
  | .ok => .done
  | .fail => .warnedAndContinued

/-- `Munmap`: on `munmap` failure, print the errno text and
`ereport(ERROR, …)`. -/
def munmapOutcome : SyscallResult → TeardownOutcome
  | .ok => .done
  | .fail => .abortedWithError

/-- `SemDestroy`: on `sem_destroy` failure, print the errno text and
`ereport(ERROR, …)`. -/
def semDestroyOutcome : SyscallResult → TeardownOutcome
  | .ok => .done
  | .fail => .abortedWithError

/-- C8 counterexample: a failing `Munmap` — and likewise a failing
`SemDestroy` — raises `ereport(ERROR, …)`, aborting the calling operation,
rather than logging a diagnostic and letting the caller continue. -/
theorem munmap_semdestroy_abort_on_failure :
    munmapOutcome .fail = .abortedWithError
    ∧ semDestroyOutcome .fail = .abortedWithError
    ∧ ¬ munmapOutcome .fail = .warnedAndContinued := by
  exact ⟨rfl, rfl, by decide⟩

/-- C8 (amended): of the three teardown wrappers only the shared-segment
unlink is log-and-continue on failure; unmap and semaphore destroy abort
the calling operation with an error; all three return silently on
success. -/
theorem teardown_outcomes :
    shmUnlinkOutcome .fail = .warnedAndContinued
    ∧ munmapOutcome .fail = .abortedWithError
    ∧ semDestroyOutcome .fail = .abortedWithError
    ∧ shmUnlinkOutcome .ok = .done
    ∧ munmapOutcome .ok = .done
    ∧ semDestroyOutcome .ok = .done := by
  exact ⟨rfl, rfl, rfl, rfl, rfl, rfl⟩

/-! ## Open handler reply paths (kv_worker.cc and server/kv_worker.cc
`KVWorker::Open`) -/

/-- Message statuses of the message-queue protocol. -/
inductive KVStatus where
  | statusDummy | statusSuccess | statusFailure | statusException
deriving DecidableEq, Repr

/-- kv_worker.cc `KVWorker::Open`: receive the arguments; if a connection
exists, `ref++`, otherwise store whatever `OpenConn` returned; then always
send `SimpleSuccessMessage(msg.hdr.resChan)` — the handler has no failure
or exception reply path, whatever the storage engine produced.  Returns
the new worker state and the `(rpsId, status)` messages sent. -/
def oldOpenHandler (s : ServerWorkerState) (openResult : Option Nat)
    (resChan : Nat) : ServerWorkerState × List (Nat × KVStatus) :=
  (match s.conn with
   | some c => { conn := some c, ref := s.ref + 1 }
   | none => { conn := openResult, ref := s.ref },
   [(resChan, .statusSuccess)])

/-- server/kv_worker.cc `KVWorker::Open`: receive the arguments; open the
connection only if none exists; `ref_++`; send nothing at all. -/
def serverOpenHandler (s : ServerWorkerState) (openResult : Option Nat) :
    ServerWorkerState × List (Nat × KVStatus) :=
  ({ conn := match s.conn with
             | some c => some c
             | none => openResult,
     ref := s.ref + 1 },
   [])

/-- C10: for every Open request the response status sent to the client —
when any response is sent at all — is Success: the kv_worker.cc handler
always replies with exactly one Success message on the command's response
channel regardless of what the storage engine produced (even a null
connection), and the server/kv_worker.cc handler sends no response at all,
so neither can surface a storage-engine open failure through the status
field. -/
theorem open_reply_always_success :
    (∀ (s : ServerWorkerState) (r : Option Nat) (chan : Nat),
        (oldOpenHandler s r chan).2 = [(chan, KVStatus.statusSuccess)])
    ∧ (∀ (s : ServerWorkerState) (r : Option Nat),
        (serverOpenHandler s r).2 = [])
    ∧ (∀ (s : ServerWorkerState) (r : Option Nat) (chan : Nat),
        ((oldOpenHandler s r chan).2 ++ (serverOpenHandler s r).2).all
          (fun msg => msg.2 == KVStatus.statusSuccess) = true) := by
  exact ⟨fun s r chan => rfl, fun s r => rfl, fun s r chan => rfl⟩

end KVFdw
